import Mathlib

/-!
Verification of the books CRUD service.

The data model and every operation below are shallow embeddings of the
Python source: `models.py` (the `Book` row), `schemas.py` (pydantic
validation), and `routers/books.py` (the handlers and the combined
create+update transaction).  The store is a list of rows in insertion
order; the database's unique index on `title` and the primary key on
`id` appear as explicit checks and invariants.
-/

namespace BooksApi

/-- `models.Book`: id (primary key), title (unique, non-null),
description (nullable text), created_at (server clock at insert). -/
structure Book where
  id : Nat
  title : String
  description : Option String
  created_at : Nat
deriving Repr, DecidableEq

/-- `schemas.BookCreate`: required title, optional description. -/
structure BookCreate where
  title : String
  description : Option String
deriving Repr, DecidableEq

/-- `schemas.BookUpdate`: both fields optional. -/
structure BookUpdate where
  title : Option String
  description : Option String
deriving Repr, DecidableEq

/-- The database state: rows in insertion order, the id sequence, and the
server clock used for `created_at` defaults. -/
structure DB where
  books : List Book
  nextId : Nat
  now : Nat
deriving Repr, DecidableEq

/-- An HTTP-level outcome: success with a status code and body, or an
error with a status code and a detail message. -/
inductive Response (α : Type) where
  | ok (status : Nat) (body : α)
  | err (status : Nat) (detail : String)
deriving Repr, DecidableEq

/-- `schemas.BookCreate` validation: pydantic `Field(min_length=1,
max_length=200)` measures the raw (untrimmed) string length. -/
def validCreate (c : BookCreate) : Bool :=
  1 ≤ c.title.length && c.title.length ≤ 200

/-- `schemas.BookUpdate` validation: `title` optional; when supplied,
the same raw-length bounds apply. -/
def validUpdate (u : BookUpdate) : Bool :=
  match u.title with
  | none => true
  | some t => 1 ≤ t.length && t.length ≤ 200

/-- Length of a string after stripping leading and trailing whitespace.
Used only to state the spec's "trimmed length" wording. -/
def trimmedLength (s : String) : Nat :=
  ((s.data.dropWhile Char.isWhitespace).reverse.dropWhile Char.isWhitespace).length

/-- Modelled from the spec wording "trimmed length 1–200" (§4.1), for
comparison with the pydantic validation actually in `schemas.py`. -/
def validCreateSpecTrimmed (c : BookCreate) : Bool :=
  1 ≤ trimmedLength c.title && trimmedLength c.title ≤ 200

/-- PostgreSQL `LIKE`/`ILIKE` pattern matching against a whole string
(the store is PostgreSQL per `database.py`, and `ilike()` passes the
pattern with no ESCAPE clause, so the default escape applies):
backslash escapes the next pattern character, which then matches
literally; `%` matches any run of characters; `_` matches exactly one
character; every literal comparison is case-insensitive (`ILIKE` folds
both sides).  A dangling trailing escape is an error in PostgreSQL and
matches nothing; the handler's `%f%` patterns never produce one. -/
def likeMatch : List Char → List Char → Bool
  | [], [] => true
  | [], _ :: _ => false
  | '%' :: ps, s => s.tails.any (fun t => likeMatch ps t)
  | '\\' :: _ :: _, [] => false
  | '\\' :: q :: qs, c :: cs => (q.toLower == c.toLower) && likeMatch qs cs
  | ['\\'], _ => false
  | _ :: _, [] => false
  | p :: ps, c :: cs => (if p = '_' then true else p.toLower == c.toLower) && likeMatch ps cs

/-- Case-insensitive substring containment, the spec's description of the
title filter. -/
def ciContains (s f : String) : Prop :=
  (f.data.map Char.toLower) <:+: (s.data.map Char.toLower)

instance (s f : String) : Decidable (ciContains s f) :=
  inferInstanceAs (Decidable ((f.data.map Char.toLower) <:+: (s.data.map Char.toLower)))

/-- `create_and_update_book_transaction` in `routers/books.py`: insert a
row (the `flush` runs the INSERT, where the unique index on `title` can
fire), rewrite its title to `new_title` in the same transaction (the
`commit` runs the UPDATE, where the unique index can fire against the
other rows), commit both or roll the whole transaction back. -/
def create_and_update_book_transaction (title : String) (description : String)
    (new_title : String) (db : DB) : Except String Book × DB :=
  if db.books.any (fun b => b.title == title) then
    (.error "IntegrityError: duplicate key value violates unique constraint", db)
  else
    let b : Book := { id := db.nextId, title := title,
                      description := some description, created_at := db.now }
    let b' : Book := { b with title := new_title }
    if db.books.any (fun x => x.title == new_title) then
      (.error "IntegrityError: duplicate key value violates unique constraint", db)
    else
      (.ok b', { db with books := db.books ++ [b'], nextId := db.nextId + 1 })

/-- `create_book` (`POST /books/`): pre-check the title, 400 if taken,
otherwise insert and return the row with 201. -/
def create_book (book : BookCreate) (db : DB) : Response Book × DB :=
  if db.books.any (fun b => b.title == book.title) then
    (.err 400 "Book with this title already exists", db)
  else
    let b : Book := { id := db.nextId, title := book.title,
                      description := book.description, created_at := db.now }
    (.ok 201 b, { db with books := db.books ++ [b], nextId := db.nextId + 1 })

/-- The create route including the pydantic validation step: invalid
bodies are rejected with 422 before the handler runs. -/
def create_endpoint (book : BookCreate) (db : DB) : Response Book × DB :=
  if validCreate book then create_book book db else (.err 422 "validation error", db)

/-- `get_books` (`GET /books/`): optional case-insensitive `ilike`
filter (`%title%`), then offset/limit pagination.  An empty filter
string is falsy in Python, so it is not applied. -/
def get_books (skip limit : Nat) (title : Option String) (db : DB) : List Book :=
  let q : List Book := db.books
  let q : List Book := match title with
    | some t => if t ≠ "" then q.filter (fun b => likeMatch ('%' :: (t.data ++ ['%'])) b.title.data) else q
    | none => q
  (q.drop skip).take limit

/-- `get_book` (`GET /books/{id}`): 200 with the row, or 404. -/
def get_book (book_id : Nat) (db : DB) : Response Book × DB :=
  match db.books.find? (fun b => b.id == book_id) with
  | none => (.err 404 "Book not found", db)
  | some b => (.ok 200 b, db)

/-- Field application in `update_book`: `if book_update.title is not
None: book.title = ...`, and likewise for description. -/
def applyUpdate (b : Book) (u : BookUpdate) : Book :=
  { b with
    title := match u.title with | some t => t | none => b.title,
    description := match u.description with | some d => some d | none => b.description }

/-- Replace the first row carrying the given primary key — the ORM
mutates the single loaded row in place. -/
def replaceFirstById (book_id : Nat) (b' : Book) : List Book → List Book
  | [] => []
  | b :: bs => if b.id == book_id then b' :: bs else b :: replaceFirstById book_id b' bs

/-- `update_book` (`PUT /books/{id}`): 404 when the id is absent; when a
truthy new title differs from the row's own title, 400 if any row
already has it; otherwise apply the supplied fields and return 200. -/
def update_book (book_id : Nat) (u : BookUpdate) (db : DB) : Response Book × DB :=
  match db.books.find? (fun b => b.id == book_id) with
  | none => (.err 404 "Book not found", db)
  | some book =>
    let collision : Bool :=
      match u.title with
      | some t => t != "" && t != book.title && db.books.any (fun b => b.title == t)
      | none => false
    if collision then (.err 400 "Book with this title already exists", db)
    else
      let book' := applyUpdate book u
      (.ok 200 book', { db with books := replaceFirstById book_id book' db.books })

/-- The update route including the pydantic validation step. -/
def update_endpoint (book_id : Nat) (u : BookUpdate) (db : DB) : Response Book × DB :=
  if validUpdate u then update_book book_id u db else (.err 422 "validation error", db)

/-- `delete_book` (`DELETE /books/{id}`): 404 when absent, otherwise
remove the row and return 204 with an empty body. -/
def delete_book (book_id : Nat) (db : DB) : Response Unit × DB :=
  match db.books.find? (fun b => b.id == book_id) with
  | none => (.err 404 "Book not found", db)
  | some _ => (.ok 204 (), { db with books := db.books.filter (fun b => b.id != book_id) })

/-- The SQL aggregation `count(Book.id)`: counts the (non-null) ids. -/
def countIds (l : List Book) : Nat :=
  (l.map (fun b => b.id)).length

/-- `get_book_count` (`GET /books/stats/count`): always 200, body key
`total_books`. -/
def get_book_count (db : DB) : Response (String × Nat) × DB :=
  (.ok 200 ("total_books", countIds db.books), db)

/-- The title-uniqueness invariant: no two live rows share a title. -/
def uniqueTitles (db : DB) : Prop :=
  (db.books.map (fun b => b.title)).Nodup

instance (db : DB) : Decidable (uniqueTitles db) := by
  unfold uniqueTitles; infer_instance

/-- The id-sequence invariant: every stored id is below the sequence
value, so the next insert gets a fresh primary key. -/
def idsFresh (db : DB) : Prop :=
  ∀ b ∈ db.books, b.id < db.nextId

instance (db : DB) : Decidable (idsFresh db) :=
  inferInstanceAs (Decidable (∀ b ∈ db.books, b.id < db.nextId))

/-! Concrete states used by witnesses and counterexamples. -/

/-- The empty store with the id sequence at 0. -/
def db0 : DB := ⟨[], 0, 0⟩

/-- A single stored row titled `"A"`. -/
def bookA : Book := ⟨1, "A", none, 0⟩

/-- A store holding only `bookA`. -/
def dbA : DB := ⟨[bookA], 2, 5⟩

/-- A store holding two rows inserted in order. -/
def db2 : DB := ⟨[⟨1, "Book 1", none, 0⟩, ⟨2, "Book 2", some "x", 0⟩], 3, 7⟩

/-! Helper lemmas. -/

/-- A successful `find?` on the primary key splits the store into the rows
before the hit, the hit, and the rows after; `replaceFirstById` rewrites
exactly the hit. -/
theorem find?_decomp {l : List Book} {i : Nat} {book : Book}
    (h : l.find? (fun b => b.id == i) = some book) :
    ∃ l1 l2, l = l1 ++ book :: l2 ∧ (∀ x ∈ l1, ¬ x.id = i) ∧
      ∀ b' : Book, replaceFirstById i b' l = l1 ++ b' :: l2 := by
  induction l with
  | nil => simp at h
  | cons b bs ih =>
    by_cases hb : b.id = i
    · rw [List.find?_cons_of_pos _ (by simpa using hb)] at h
      obtain rfl := Option.some.inj h
      exact ⟨[], bs, rfl, by simp, fun b' => by simp [replaceFirstById, hb]⟩
    · rw [List.find?_cons_of_neg _ (by simpa using hb)] at h
      obtain ⟨l1, l2, heq, hl1, hrep⟩ := ih h
      refine ⟨b :: l1, l2, by rw [heq]; rfl, ?_, fun b' => ?_⟩
      · intro x hx
        rcases List.mem_cons.mp hx with rfl | hx
        · exact hb
        · exact hl1 x hx
      · simp [replaceFirstById, hb, hrep b']

/-- C9: the count endpoint never fails; it answers 200 with body key
`total_books` and value equal to the number of live rows, leaving the
store untouched. -/
theorem get_book_count_total (db : DB) :
    get_book_count db = (.ok 200 ("total_books", db.books.length), db) := by
  simp [get_book_count, countIds]

/-- C10: an update supplying neither field is an accepted no-op — it
answers 200 with the unchanged row and leaves the store exactly as it
was. -/
theorem empty_update_noop (book_id : Nat) (db : DB) (book : Book)
    (h : db.books.find? (fun b => b.id == book_id) = some book) :
    update_book book_id ⟨none, none⟩ db = (.ok 200 book, db) := by
  obtain ⟨l1, l2, heq, -, hrep⟩ := find?_decomp h
  have happ : applyUpdate book ⟨none, none⟩ = book := rfl
  have hrep' : replaceFirstById book_id book db.books = db.books := by
    rw [hrep book, heq]
  simp [update_book, h, happ, hrep']

/-- C10 witness: the empty update on a concrete two-row store. -/
theorem empty_update_noop_witness :
    update_book 1 ⟨none, none⟩ db2 = (.ok 200 ⟨1, "Book 1", none, 0⟩, db2) :=
  empty_update_noop 1 db2 ⟨1, "Book 1", none, 0⟩ (by decide)

/-- C8: pagination over the unfiltered list is drop-then-take on the
rows in insertion order, so the result is an in-order sublist of the
store of length at most `limit`; over a store of exactly two inserted
rows, `skip=1, limit=1` yields exactly the second-inserted row. -/
theorem get_books_pagination (db : DB) (skip limit : Nat) :
    get_books skip limit none db = (db.books.drop skip).take limit ∧
    (get_books skip limit none db).Sublist db.books ∧
    (get_books skip limit none db).length ≤ limit ∧
    (∀ b1 b2 : Book, db.books = [b1, b2] → get_books 1 1 none db = [b2]) := by
  refine ⟨rfl, ?_, ?_, ?_⟩
  · exact ((List.take_sublist _ _).trans (List.drop_sublist _ _))
  · show ((db.books.drop skip).take limit).length ≤ limit
    rw [List.length_take]
    exact min_le_left _ _
  · intro b1 b2 h
    simp [get_books, h]

/-- C8 witness: the two-row instance evaluated on a concrete store. -/
theorem get_books_pagination_witness : get_books 1 1 none db2 = [⟨2, "Book 2", some "x", 0⟩] :=
  (get_books_pagination db2 1 1).2.2.2 ⟨1, "Book 1", none, 0⟩ ⟨2, "Book 2", some "x", 0⟩ rfl

/-- C5: a successful update has partial-update frame semantics — the
returned row keeps the old `id` and `created_at`, absent fields keep
their previous values, supplied fields take the supplied values, and
every other row (and the id sequence and clock) is untouched. -/
theorem update_frame_semantics (book_id : Nat) (u : BookUpdate) (db : DB) (book r : Book)
    (db' : DB)
    (hfind : db.books.find? (fun b => b.id == book_id) = some book)
    (hok : update_book book_id u db = (.ok 200 r, db')) :
    r.id = book.id ∧ r.created_at = book.created_at ∧
    (u.title = none → r.title = book.title) ∧
    (u.description = none → r.description = book.description) ∧
    (∀ t, u.title = some t → r.title = t) ∧
    (∀ d, u.description = some d → r.description = some d) ∧
    db'.nextId = db.nextId ∧ db'.now = db.now ∧
    ∃ l1 l2, db.books = l1 ++ book :: l2 ∧ db'.books = l1 ++ r :: l2 := by
  obtain ⟨l1, l2, heq, -, hrep⟩ := find?_decomp hfind
  simp only [update_book, hfind] at hok
  split at hok
  · simp at hok
  · rw [Prod.mk.injEq] at hok
    obtain ⟨hr, hdb⟩ := hok
    rw [Response.ok.injEq] at hr
    obtain ⟨-, hr⟩ := hr
    subst hr
    subst hdb
    refine ⟨rfl, rfl, ?_, ?_, ?_, ?_, rfl, rfl, l1, l2, heq, ?_⟩
    · intro h; simp [applyUpdate, h]
    · intro h; simp [applyUpdate, h]
    · intro t h; simp [applyUpdate, h]
    · intro d h; simp [applyUpdate, h]
    · exact hrep _

/-- C5 witness: a description-only update on a concrete store keeps the
title, id and created_at, changes only the description, and leaves the
other row in place. -/
theorem update_frame_semantics_witness :
    let r : Book := ⟨1, "Book 1", some "new", 0⟩
    r.id = 1 ∧ r.created_at = 0 ∧ r.title = "Book 1" ∧ r.description = some "new" ∧
    ∃ l1 l2, db2.books = l1 ++ (⟨1, "Book 1", none, 0⟩ : Book) :: l2 ∧
      (update_book 1 ⟨none, some "new"⟩ db2).2.books = l1 ++ r :: l2 := by
  intro r
  obtain ⟨h1, h2, h3, -, -, h6, -, -, l1, l2, h9, h10⟩ :=
    update_frame_semantics 1 ⟨none, some "new"⟩ db2 ⟨1, "Book 1", none, 0⟩ r
      (update_book 1 ⟨none, some "new"⟩ db2).2 (by decide) (by decide)
  exact ⟨h1, h2, h3 rfl, h6 "new" rfl, l1, l2, h9, h10⟩

/-- C4: update answers 404 (and changes nothing) exactly when the id is
absent; for a found row it answers 400 (and changes nothing) exactly
when the supplied title belongs to a different existing row — supplying
the row's own title is not a collision — and otherwise answers 200 with
the updated row. -/
theorem update_error_cases (book_id : Nat) (u : BookUpdate) (db : DB)
    (hv : validUpdate u = true) (hu : uniqueTitles db) :
    ((¬ ∃ b ∈ db.books, b.id = book_id) ↔
      update_book book_id u db = (.err 404 "Book not found", db)) ∧
    (∀ book, db.books.find? (fun b => b.id == book_id) = some book →
      ((update_book book_id u db = (.err 400 "Book with this title already exists", db)) ↔
        (∃ t, u.title = some t ∧ ∃ b ∈ db.books, ¬ b = book ∧ b.title = t)) ∧
      ((¬ ∃ t, u.title = some t ∧ ∃ b ∈ db.books, ¬ b = book ∧ b.title = t) →
        update_book book_id u db =
          (.ok 200 (applyUpdate book u),
            { db with books := replaceFirstById book_id (applyUpdate book u) db.books }))) := by
  constructor
  · constructor
    · intro habs
      have hnone : db.books.find? (fun b => b.id == book_id) = none := by
        rw [List.find?_eq_none]
        intro x hx
        simpa using fun h => habs ⟨x, hx, h⟩
      simp [update_book, hnone]
    · intro hresp habs
      obtain ⟨b, hb, hid⟩ := habs
      cases hfind : db.books.find? (fun b => b.id == book_id) with
      | none =>
        rw [List.find?_eq_none] at hfind
        exact hfind b hb (by simpa using hid)
      | some book =>
        simp only [update_book, hfind] at hresp
        split at hresp <;> simp at hresp
  · intro book hfind
    have hmem : book ∈ db.books := List.mem_of_find?_eq_some hfind
    have hcoll : (match u.title with
        | some t => t != "" && t != book.title && db.books.any (fun b => b.title == t)
        | none => false) = true ↔
        ∃ t, u.title = some t ∧ ∃ b ∈ db.books, ¬ b = book ∧ b.title = t := by
      cases hut : u.title with
      | none => simp
      | some t =>
        have ht1 : ¬ t = "" := by
          rw [validUpdate, hut] at hv
          intro h
          rw [h] at hv
          simp at hv
        constructor
        · intro h
          simp only [Bool.and_eq_true, bne_iff_ne, ne_eq, List.any_eq_true,
            beq_iff_eq] at h
          obtain ⟨⟨-, ht2⟩, b, hb, hbt⟩ := h
          exact ⟨t, rfl, b, hb, fun h => ht2 (by rw [← hbt, h]), hbt⟩
        · intro h
          obtain ⟨t2, ht2eq, b, hb, hbne, hbt⟩ := h
          obtain rfl : t = t2 := Option.some.inj ht2eq
          have ht2 : ¬ t = book.title := by
            intro h
            exact hbne (List.inj_on_of_nodup_map hu hb hmem (by rw [hbt, h]))
          simp only [Bool.and_eq_true, bne_iff_ne, ne_eq, List.any_eq_true, beq_iff_eq]
          exact ⟨⟨ht1, ht2⟩, b, hb, hbt⟩
    constructor
    · constructor
      · intro hresp
        rw [← hcoll]
        by_contra hc
        simp only [update_book, hfind] at hresp
        rw [if_neg hc] at hresp
        simp at hresp
      · intro hex
        have hc := hcoll.mpr hex
        simp only [update_book, hfind] at *
        rw [if_pos hc]
    · intro hnex
      have hc : ¬ (match u.title with
          | some t => t != "" && t != book.title && db.books.any (fun b => b.title == t)
          | none => false) = true := fun h => hnex (hcoll.mp h)
      simp only [update_book, hfind]
      rw [if_neg hc]

/-- C4 witness: on a concrete store, updating a missing id answers 404,
a colliding title answers 400 with the store unchanged, and supplying
the row's own title succeeds. -/
theorem update_error_cases_witness :
    update_book 1 ⟨some "Book 2", none⟩ db2 =
      (.err 400 "Book with this title already exists", db2) ∧
    (¬ ∃ b ∈ db2.books, b.id = 9) ∧
    update_book 9 ⟨some "Fresh", none⟩ db2 = (.err 404 "Book not found", db2) ∧
    update_book 1 ⟨some "Book 1", none⟩ db2 =
      (.ok 200 ⟨1, "Book 1", none, 0⟩,
        { db2 with books := replaceFirstById 1 ⟨1, "Book 1", none, 0⟩ db2.books }) := by
  have habs : ¬ ∃ b ∈ db2.books, b.id = 9 := by decide
  refine ⟨?_, habs, ?_, ?_⟩
  · exact (((update_error_cases 1 ⟨some "Book 2", none⟩ db2 (by decide) (by decide)).2
      ⟨1, "Book 1", none, 0⟩ (by decide)).1).mpr
      ⟨"Book 2", rfl, ⟨2, "Book 2", some "x", 0⟩, by decide, by decide, rfl⟩
  · exact ((update_error_cases 9 ⟨some "Fresh", none⟩ db2 (by decide) (by decide)).1).mp habs
  · have h := ((update_error_cases 1 ⟨some "Book 1", none⟩ db2 (by decide) (by decide)).2
      ⟨1, "Book 1", none, 0⟩ (by decide)).2 (by decide)
    simpa using h

/-- C3: for a schema-valid body, create succeeds exactly when the title
is fresh — 201 with a row echoing title and description and carrying a
fresh id and the server clock — and otherwise answers 400 with a detail
containing "already exists", leaving the store unchanged. -/
theorem create_fresh_or_conflict (inp : BookCreate) (db : DB)
    (hv : validCreate inp = true) (hid : idsFresh db) :
    ((¬ ∃ b ∈ db.books, b.title = inp.title) →
      ∃ nb : Book, create_endpoint inp db =
          (.ok 201 nb, { books := db.books ++ [nb], nextId := db.nextId + 1, now := db.now }) ∧
        nb.title = inp.title ∧ nb.description = inp.description ∧
        nb.created_at = db.now ∧ ∀ x ∈ db.books, ¬ x.id = nb.id) ∧
    ((∃ b ∈ db.books, b.title = inp.title) →
      create_endpoint inp db = (.err 400 "Book with this title already exists", db) ∧
      "already exists".data <:+: "Book with this title already exists".data) := by
  have hval : create_endpoint inp db = create_book inp db := by
    simp [create_endpoint, hv]
  constructor
  · intro habs
    have hany : db.books.any (fun b => b.title == inp.title) = false := by
      rw [Bool.eq_false_iff]
      intro h
      obtain ⟨b, hb, hbt⟩ := List.any_eq_true.mp h
      exact habs ⟨b, hb, by simpa using hbt⟩
    refine ⟨⟨db.nextId, inp.title, inp.description, db.now⟩, ?_, rfl, rfl, rfl, ?_⟩
    · rw [hval]
      simp [create_book, hany]
    · intro x hx h
      exact absurd (h ▸ hid x hx) (lt_irrefl _)
  · intro hex
    obtain ⟨b, hb, hbt⟩ := hex
    have hany : db.books.any (fun b => b.title == inp.title) = true :=
      List.any_eq_true.mpr ⟨b, hb, by simpa using hbt⟩
    constructor
    · rw [hval]
      simp [create_book, hany]
    · decide

/-- C3 witness: on a concrete store, a fresh title gets 201 echoing the
body with a fresh id, and a repeated title gets 400. -/
theorem create_fresh_or_conflict_witness :
    (∃ nb : Book, create_endpoint ⟨"New", some "d"⟩ db2 =
        (.ok 201 nb, { books := db2.books ++ [nb], nextId := db2.nextId + 1, now := db2.now }) ∧
      nb.title = "New" ∧ nb.description = some "d" ∧
      nb.created_at = db2.now ∧ ∀ x ∈ db2.books, ¬ x.id = nb.id) ∧
    create_endpoint ⟨"Book 1", none⟩ db2 =
      (.err 400 "Book with this title already exists", db2) := by
  constructor
  · exact (create_fresh_or_conflict ⟨"New", some "d"⟩ db2 (by decide) (by decide)).1
      (by decide)
  · exact ((create_fresh_or_conflict ⟨"Book 1", none⟩ db2 (by decide) (by decide)).2
      ⟨⟨1, "Book 1", none, 0⟩, by decide, rfl⟩).1

/-- C2: the combined create+update transaction is all-or-nothing — on
success the store gains exactly one row, titled `new_title` with the
given description, and (when the titles differ) the intermediate
original title is nowhere in the store; on failure the store is exactly
as before. -/
theorem transaction_atomic (t d nt : String) (db : DB) :
    (∀ (b : Book) (db' : DB),
      create_and_update_book_transaction t d nt db = (.ok b, db') →
        db'.books = db.books ++ [b] ∧ b.title = nt ∧ b.description = some d ∧
        db'.nextId = db.nextId + 1 ∧ db'.now = db.now ∧
        (¬ nt = t → ∀ x ∈ db'.books, ¬ x.title = t)) ∧
    (∀ (e : String) (db' : DB),
      create_and_update_book_transaction t d nt db = (.error e, db') → db' = db) := by
  constructor
  · intro b db' h
    simp only [create_and_update_book_transaction] at h
    split at h
    · simp at h
    · rename_i hflush
      split at h
      · simp at h
      · rename_i hcommit
        rw [Prod.mk.injEq] at h
        obtain ⟨hb, hdb⟩ := h
        obtain rfl := Except.ok.inj hb
        subst hdb
        refine ⟨rfl, rfl, rfl, rfl, rfl, ?_⟩
        intro hne x hx hxt
        rcases List.mem_append.mp hx with hx | hx
        · exact hflush (List.any_eq_true.mpr ⟨x, hx, by simpa using hxt⟩)
        · simp at hx
          rw [hx] at hxt
          exact hne hxt
  · intro e db' h
    simp only [create_and_update_book_transaction] at h
    split at h
    · rw [Prod.mk.injEq] at h
      exact h.2.symm ▸ rfl
    · split at h
      · rw [Prod.mk.injEq] at h
        exact h.2.symm ▸ rfl
      · simp at h

/-- C2 witness: a concrete successful run of the transaction, and a
concrete failing run that leaves the store as it was. -/
theorem transaction_atomic_witness :
    ((⟨[⟨0, "B", some "d", 0⟩], 1, 0⟩ : DB).books = db0.books ++ [⟨0, "B", some "d", 0⟩] ∧
      (⟨0, "B", some "d", 0⟩ : Book).title = "B" ∧
      (⟨0, "B", some "d", 0⟩ : Book).description = some "d" ∧
      (⟨[⟨0, "B", some "d", 0⟩], 1, 0⟩ : DB).nextId = db0.nextId + 1 ∧
      (⟨[⟨0, "B", some "d", 0⟩], 1, 0⟩ : DB).now = db0.now ∧
      (¬ "B" = "A" → ∀ x ∈ (⟨[⟨0, "B", some "d", 0⟩], 1, 0⟩ : DB).books, ¬ x.title = "A")) ∧
    dbA = dbA := by
  constructor
  · exact (transaction_atomic "A" "d" "B" db0).1 ⟨0, "B", some "d", 0⟩
      ⟨[⟨0, "B", some "d", 0⟩], 1, 0⟩ rfl
  · exact (transaction_atomic "A" "d" "B" dbA).2
      "IntegrityError: duplicate key value violates unique constraint" dbA rfl

/-- Appending a row whose title no existing row carries preserves
title-uniqueness. -/
theorem nodup_titles_append {l : List Book} {b : Book}
    (h : (l.map (fun x => x.title)).Nodup) (hb : ∀ x ∈ l, ¬ x.title = b.title) :
    ((l ++ [b]).map (fun x => x.title)).Nodup := by
  rw [List.map_append, List.map_cons, List.map_nil, List.nodup_append]
  refine ⟨h, List.nodup_singleton _, ?_⟩
  intro s hs hs2
  obtain ⟨y, hy, hyt⟩ := List.mem_map.mp hs
  rw [List.mem_singleton] at hs2
  exact hb y hy (hyt.trans hs2)

/-- Replacing one row by a row whose title is either unchanged or carried
by no row at all preserves title-uniqueness. -/
theorem nodup_titles_surgery {l1 l2 : List Book} {book b' : Book}
    (h : ((l1 ++ book :: l2).map (fun b => b.title)).Nodup)
    (hcase : b'.title = book.title ∨ ∀ x ∈ l1 ++ book :: l2, ¬ x.title = b'.title) :
    ((l1 ++ b' :: l2).map (fun b => b.title)).Nodup := by
  rw [List.map_append, List.map_cons] at h ⊢
  rcases hcase with hc | hc
  · rwa [hc]
  · rw [List.nodup_middle, List.nodup_cons] at h ⊢
    obtain ⟨-, h2⟩ := h
    refine ⟨?_, h2⟩
    intro hmem
    rcases List.mem_append.mp hmem with hm | hm <;>
      obtain ⟨x, hx, hxt⟩ := List.mem_map.mp hm
    · exact hc x (List.mem_append.mpr (Or.inl hx)) hxt
    · exact hc x (List.mem_append.mpr (Or.inr (List.mem_cons_of_mem _ hx))) hxt

/-- C1: starting from a store with pairwise-distinct titles, create,
update (on a schema-valid body), delete, and the combined create+update
transaction all leave the titles pairwise distinct. -/
theorem unique_titles_invariant (db : DB) (hu : uniqueTitles db) :
    (∀ inp, uniqueTitles (create_book inp db).2) ∧
    (∀ i u, validUpdate u = true → uniqueTitles (update_book i u db).2) ∧
    (∀ i, uniqueTitles (delete_book i db).2) ∧
    (∀ t d nt, uniqueTitles (create_and_update_book_transaction t d nt db).2) := by
  refine ⟨?_, ?_, ?_, ?_⟩
  · intro inp
    by_cases hany : db.books.any (fun b => b.title == inp.title) = true
    · simpa [create_book, hany] using hu
    · simp only [create_book]
      rw [if_neg hany]
      show ((db.books ++ [(_ : Book)]).map (fun x => x.title)).Nodup
      apply nodup_titles_append hu
      intro x hx h
      exact hany (List.any_eq_true.mpr ⟨x, hx, by simpa using h⟩)
  · intro i u hvu
    cases hfind : db.books.find? (fun b => b.id == i) with
    | none => simpa [update_book, hfind] using hu
    | some book =>
      obtain ⟨l1, l2, heq, -, hrep⟩ := find?_decomp hfind
      have hu' : ((l1 ++ book :: l2).map (fun b => b.title)).Nodup := by
        rw [← heq]; exact hu
      by_cases hc : (match u.title with
          | some t => t != "" && t != book.title && db.books.any (fun b => b.title == t)
          | none => false) = true
      · simp only [update_book, hfind]
        rw [if_pos hc]
        exact hu
      · simp only [update_book, hfind]
        rw [if_neg hc]
        show ((replaceFirstById i (applyUpdate book u) db.books).map (fun b => b.title)).Nodup
        rw [hrep]
        apply nodup_titles_surgery hu'
        cases hut : u.title with
        | none => exact Or.inl (by simp [applyUpdate, hut])
        | some t =>
          by_cases htb : t = book.title
          · exact Or.inl (by simp [applyUpdate, hut, htb])
          · refine Or.inr ?_
            have ht1 : ¬ t = "" := by
              rw [validUpdate, hut] at hvu
              intro h
              rw [h] at hvu
              simp at hvu
            rw [hut] at hc
            have hany : ¬ db.books.any (fun b => b.title == t) = true := by
              intro h
              apply hc
              simp only [Bool.and_eq_true, bne_iff_ne, ne_eq]
              exact ⟨⟨ht1, htb⟩, h⟩
            intro x hx h
            rw [← heq] at hx
            have hxt : x.title = t := by simpa [applyUpdate, hut] using h
            exact hany (List.any_eq_true.mpr ⟨x, hx, by simpa using hxt⟩)
  · intro i
    cases hfind : db.books.find? (fun b => b.id == i) with
    | none => simpa [delete_book, hfind] using hu
    | some book =>
      simp only [delete_book, hfind]
      show ((db.books.filter (fun b => b.id != i)).map (fun b => b.title)).Nodup
      exact List.Nodup.sublist
        (List.Sublist.map (fun b => b.title) (List.filter_sublist db.books)) hu
  · intro t d nt
    simp only [create_and_update_book_transaction]
    split
    · exact hu
    · split
      · exact hu
      · rename_i hflush hcommit
        show ((db.books ++ [(_ : Book)]).map (fun x => x.title)).Nodup
        apply nodup_titles_append hu
        intro x hx h
        have hxt : x.title = nt := by simpa using h
        exact hcommit (List.any_eq_true.mpr ⟨x, hx, by simpa using hxt⟩)

/-- C1 witness: the four operations evaluated on a concrete store with
distinct titles. -/
theorem unique_titles_invariant_witness :
    uniqueTitles (create_book ⟨"New", none⟩ db2).2 ∧
    uniqueTitles (update_book 1 ⟨some "Other", none⟩ db2).2 ∧
    uniqueTitles (delete_book 2 db2).2 ∧
    uniqueTitles (create_and_update_book_transaction "T" "d" "U" db2).2 := by
  obtain ⟨h1, h2, h3, h4⟩ := unique_titles_invariant db2 (by decide)
  exact ⟨h1 ⟨"New", none⟩, h2 1 ⟨some "Other", none⟩ (by decide), h3 2, h4 "T" "d" "U"⟩

/-- C6 counterexample: the single-space title has trimmed length 0, yet
validation accepts it and create answers 201 — validation measures the
raw length, it does not trim first. -/
theorem validation_trim_counterexample :
    validCreate ⟨" ", none⟩ = true ∧
    trimmedLength " " = 0 ∧
    validCreateSpecTrimmed ⟨" ", none⟩ = false ∧
    (create_endpoint ⟨" ", none⟩ db0).1 = .ok 201 ⟨0, " ", none, 0⟩ := by
  decide

/-- C6 amended: a create input is rejected with a validation error iff
its raw (untrimmed) title length is outside 1–200, and an update input
is rejected iff it supplies a title whose raw length is outside 1–200. -/
theorem validation_raw_length (c : BookCreate) (i : Nat) (u : BookUpdate) (db : DB) :
    ((create_endpoint c db).1 = .err 422 "validation error" ↔
      ¬ (1 ≤ c.title.length ∧ c.title.length ≤ 200)) ∧
    ((update_endpoint i u db).1 = .err 422 "validation error" ↔
      ∃ t, u.title = some t ∧ ¬ (1 ≤ t.length ∧ t.length ≤ 200)) := by
  constructor
  · by_cases hv : validCreate c = true
    · have hbounds : 1 ≤ c.title.length ∧ c.title.length ≤ 200 := by
        simpa [validCreate] using hv
      have hne : ¬ (create_endpoint c db).1 = .err 422 "validation error" := by
        simp only [create_endpoint, if_pos hv]
        by_cases hany : db.books.any (fun b => b.title == c.title) = true
        · simp [create_book, hany]
        · simp [create_book, hany]
      exact ⟨fun h => absurd h hne, fun h => absurd hbounds h⟩
    · have hbounds : ¬ (1 ≤ c.title.length ∧ c.title.length ≤ 200) := by
        simpa [validCreate] using hv
      simp [create_endpoint, hv, hbounds]
  · by_cases hv : validUpdate u = true
    · have hne : ¬ (update_endpoint i u db).1 = .err 422 "validation error" := by
        simp only [update_endpoint, if_pos hv]
        cases hfind : db.books.find? (fun b => b.id == i) with
        | none => simp [update_book, hfind]
        | some book =>
          simp only [update_book, hfind]
          by_cases hc : (match u.title with
              | some t => t != "" && t != book.title && db.books.any (fun b => b.title == t)
              | none => false) = true
          · rw [if_pos hc]; simp
          · rw [if_neg hc]; simp
      refine ⟨fun h => absurd h hne, fun h => ?_⟩
      obtain ⟨t, hteq, hnb⟩ := h
      rw [validUpdate, hteq] at hv
      exact (hnb (by simpa using hv)).elim
    · have h422 : (update_endpoint i u db).1 = .err 422 "validation error" := by
        simp [update_endpoint, hv]
      refine ⟨fun _ => ?_, fun _ => h422⟩
      cases hut : u.title with
      | none => rw [validUpdate, hut] at hv; simp at hv
      | some t =>
        refine ⟨t, rfl, fun hb => ?_⟩
        rw [validUpdate, hut] at hv
        exact hv (by simpa using hb)

/-- C6 witness: the amended rule applied to the empty title, which is
rejected with 422. -/
theorem validation_raw_length_witness :
    (create_endpoint ⟨"", none⟩ db0).1 = .err 422 "validation error" :=
  (validation_raw_length ⟨"", none⟩ 0 ⟨none, none⟩ db0).1.mpr (by decide)

/-- A leading `%` in the pattern matches exactly the suffixes of the
subject. -/
theorem likeMatch_pct_cons (ps s : List Char) :
    likeMatch ('%' :: ps) s = true ↔ ∃ t, t <:+ s ∧ likeMatch ps t = true := by
  rw [likeMatch.eq_3]
  simp [List.any_eq_true, List.mem_tails]

/-- A wildcard-free pattern followed by `%` matches exactly the subjects
whose case-folding starts with the pattern's case-folding. -/
theorem likeMatch_clean_pct :
    ∀ (f : List Char), (∀ c ∈ f, ¬ c = '%' ∧ ¬ c = '_' ∧ ¬ c = '\\') →
      ∀ s, (likeMatch (f ++ ['%']) s = true ↔
        (f.map Char.toLower) <+: (s.map Char.toLower)) := by
  intro f
  induction f with
  | nil =>
    intro _ s
    simp only [List.nil_append, List.map_nil]
    rw [likeMatch_pct_cons]
    constructor
    · intro _
      exact List.nil_prefix
    · intro _
      exact ⟨[], List.nil_suffix, rfl⟩
  | cons c f ih =>
    intro hf s
    have hc := hf c (List.mem_cons_self c f)
    have hf' : ∀ x ∈ f, ¬ x = '%' ∧ ¬ x = '_' ∧ ¬ x = '\\' :=
      fun x hx => hf x (List.mem_cons_of_mem _ hx)
    cases s with
    | nil =>
      rw [show (c :: f) ++ ['%'] = c :: (f ++ ['%']) from rfl]
      rw [likeMatch.eq_7 c (f ++ ['%'])
        (fun h => hc.1 h) (fun q qs h _ => hc.2.2 h) (fun h _ => hc.2.2 h)]
      simp [List.prefix_nil]
    | cons d ds =>
      rw [show (c :: f) ++ ['%'] = c :: (f ++ ['%']) from rfl]
      rw [List.map_cons, List.map_cons, List.cons_prefix_cons]
      rw [likeMatch.eq_8 c (f ++ ['%']) d ds
        (fun h => hc.1 h) (fun q qs h _ => hc.2.2 h) (fun h _ => hc.2.2 h)]
      simp only [Bool.and_eq_true, beq_iff_eq, if_neg hc.2.1]
      rw [ih hf' ds]

/-- Splitting a mapped list splits the original list. -/
theorem map_eq_append_decomp {g : Char → Char} :
    ∀ {l x z : List Char}, l.map g = x ++ z →
      ∃ l1 l2, l = l1 ++ l2 ∧ l1.map g = x ∧ l2.map g = z := by
  intro l x
  induction x generalizing l with
  | nil =>
    intro z h
    exact ⟨[], l, rfl, rfl, by simpa using h⟩
  | cons a x ih =>
    intro z h
    cases l with
    | nil => simp at h
    | cons b l =>
      rw [List.map_cons, List.cons_append] at h
      obtain ⟨ha, hrest⟩ := List.cons.inj h
      obtain ⟨l1, l2, rfl, h1, h2⟩ := ih hrest
      exact ⟨b :: l1, l2, rfl, by rw [List.map_cons, h1, ha], h2⟩

/-- The `%f%` pattern of the title filter matches exactly the subjects
whose case-folding contains the case-folded filter, provided the filter
itself holds no wildcard. -/
theorem likeMatch_pct_wrap (f : List Char)
    (hf : ∀ c ∈ f, ¬ c = '%' ∧ ¬ c = '_' ∧ ¬ c = '\\') (s : List Char) :
    likeMatch ('%' :: (f ++ ['%'])) s = true ↔
      (f.map Char.toLower) <:+: (s.map Char.toLower) := by
  rw [likeMatch_pct_cons]
  constructor
  · rintro ⟨t, ⟨a, ha⟩, hm⟩
    obtain ⟨r, hr⟩ := (likeMatch_clean_pct f hf t).mp hm
    refine ⟨a.map Char.toLower, r, ?_⟩
    rw [← ha, List.map_append, ← hr, List.append_assoc]
  · rintro ⟨x, y, hxy⟩
    have hsplit : s.map Char.toLower = x ++ (f.map Char.toLower ++ y) := by
      rw [← hxy, List.append_assoc]
    obtain ⟨s1, s2, rfl, hs1, hs2⟩ := map_eq_append_decomp hsplit
    refine ⟨s2, ⟨s1, rfl⟩, ?_⟩
    exact (likeMatch_clean_pct f hf s2).mpr ⟨y, hs2.symm⟩

/-- A single stored row whose title ends in a literal `%`. -/
def bookPct : Book := ⟨1, "x%", none, 0⟩

/-- A store holding only `bookPct`. -/
def dbPct : DB := ⟨[bookPct], 2, 0⟩

/-- C7 counterexample: with filter `"_"` over a store holding the single
title `"A"`, the code returns the row (the SQL `_` wildcard matches any
one character) although `"A"` does not contain `"_"` as a substring; and
with filter `"\"` over the single title `"x%"` the code also returns
the row (the backslash escapes the trailing `%` of the `%f%` pattern,
which then matches a literal `%`) although `"x%"` does not contain
`"\"`.  So the filter is not case-insensitive substring membership for
every filter string. -/
theorem title_filter_counterexample :
    get_books 0 10 (some "_") dbA = [bookA] ∧
    ¬ ciContains "A" "_" ∧
    ¬ get_books 0 10 (some "_") dbA =
      ((dbA.books.filter (fun b => decide (ciContains b.title "_"))).drop 0).take 10 ∧
    get_books 0 10 (some "\\") dbPct = [bookPct] ∧
    ¬ ciContains "x%" "\\" := by
  refine ⟨by decide, by decide, by decide, by decide, by decide⟩

/-- C7 amended: for filter strings free of the SQL wildcards `%` and
`_` and of the default escape character `\`, the filtered list is
exactly the case-insensitive-substring matches in insertion order under
skip/limit, and the unfiltered list is all rows under skip/limit. -/
theorem get_books_title_filter (db : DB) (skip limit : Nat) (f : String)
    (hf : ∀ c ∈ f.data, ¬ c = '%' ∧ ¬ c = '_' ∧ ¬ c = '\\') :
    get_books skip limit (some f) db =
      (((db.books.filter (fun b => decide (ciContains b.title f))).drop skip).take limit) ∧
    get_books skip limit none db = (db.books.drop skip).take limit := by
  refine ⟨?_, rfl⟩
  by_cases hf0 : f = ""
  · subst hf0
    simp only [get_books]
    rw [if_neg (by simp)]
    have hfil : db.books.filter (fun b => decide (ciContains b.title "")) = db.books := by
      rw [List.filter_eq_self]
      intro b _
      rw [decide_eq_true_eq]
      exact List.nil_infix
    rw [hfil]
  · simp only [get_books]
    rw [if_pos hf0]
    have hpt : ∀ b ∈ db.books,
        likeMatch ('%' :: (f.data ++ ['%'])) b.title.data =
          decide (ciContains b.title f) := by
      intro b _
      rw [Bool.eq_iff_iff, decide_eq_true_eq]
      exact likeMatch_pct_wrap f.data hf b.title.data
    rw [List.filter_congr hpt]

/-- C7 witness: the wildcard-free filter `"book 1"` picks out exactly
the case-insensitive match `"Book 1"` on a concrete store. -/
theorem get_books_title_filter_witness :
    get_books 0 10 (some "book 1") db2 =
      ((db2.books.filter (fun b => decide (ciContains b.title "book 1"))).drop 0).take 10 :=
  (get_books_title_filter db2 0 10 "book 1" (by decide)).1

end BooksApi
